import Mathlib

/-!
Verification of the blog-log ingestion pipeline and text-analysis engine.

Each definition below is a shallow embedding of a function of the
TypeScript source (`src/services/import/wayback-fetcher.ts`,
`src/services/import/history4feed-api.ts`, the JSON file importer,
the `ImportManager` orchestrator, `src/hooks/useSummaryGeneration.ts`
and `src/services/nlp/textrank.ts`).  Strings are modelled as `String`
or `List Char`, JavaScript numbers as `Nat`/`ℚ`, thrown exceptions as
`Except`, and the network as explicit oracles passed as arguments.
-/

namespace BlogLog

/-! ### fetchWithRetry (src/services/import/wayback-fetcher.ts, lines 33-66)

`fetchWithRetry(url, maxRetries = 3)` loops `attempt = 0 .. maxRetries-1`:
a 429 response sleeps `RATE_LIMIT_MS * 2^(attempt+1)` and retries; a non-ok
response returns null at once; a network error sleeps `RATE_LIMIT_MS * 2^attempt`
(only when `attempt < maxRetries - 1`) and retries; exhausting the loop returns
null.  The loop is embedded with `remaining = maxRetries - attempt` as the
structural argument; `oracle` gives the outcome of each attempt, and the second
component of the result collects the sleep durations (ms), i.e. the backoff
schedule actually executed. -/

def RATE_LIMIT_MS : Nat := 1100

structure HttpResponse where
  status : Nat
  body : String
deriving DecidableEq

inductive AttemptOutcome where
  | netError
  | resp (r : HttpResponse)
deriving DecidableEq

/-- JavaScript `Response.ok`: status in the range 200-299. -/
def respOk (r : HttpResponse) : Bool := 200 ≤ r.status && r.status ≤ 299

def fetchWithRetryAux (oracle : Nat → AttemptOutcome) :
    Nat → Nat → Option HttpResponse × List Nat
  | 0, _ => (none, [])
  | remaining + 1, attempt =>
    match oracle attempt with
    | .resp r =>
      if r.status = 429 then
        let rest := fetchWithRetryAux oracle remaining (attempt + 1)
        (rest.1, RATE_LIMIT_MS * 2 ^ (attempt + 1) :: rest.2)
      else if respOk r then (some r, [])
      else (none, [])
    | .netError =>
      if 0 < remaining then
        let rest := fetchWithRetryAux oracle remaining (attempt + 1)
        (rest.1, RATE_LIMIT_MS * 2 ^ attempt :: rest.2)
      else (none, [])

def fetchWithRetry (oracle : Nat → AttemptOutcome) (maxRetries : Nat) :
    Option HttpResponse × List Nat :=
  fetchWithRetryAux oracle maxRetries 0

/-- Does an attempt outcome carry an HTTP 429 response? -/
def is429 : AttemptOutcome → Bool
  | .resp r => r.status = 429
  | .netError => false

/-- The oracle of end-to-end scenario 4: the server answers 429 three times,
then succeeds. -/
def oracle429x3 : Nat → AttemptOutcome := fun n =>
  if n < 3 then .resp ⟨429, ""⟩ else .resp ⟨200, "ok"⟩

/-- A server that answers 429 twice, then succeeds. -/
def oracle429x2 : Nat → AttemptOutcome := fun n =>
  if n < 2 then .resp ⟨429, ""⟩ else .resp ⟨200, "ok"⟩

/-! ### CDX snapshot down-sampling (src/services/import/wayback-fetcher.ts, lines 459-471)

When more than 30 snapshots are returned the importer keeps the indices
`0, step, 2*step, ...` with `step = floor(length / 30)`, then prepends the
oldest and appends the newest timestamp when they are not already selected
(by value, `Array.includes`).  Timestamps are opaque values; `d` is the
`getD` default and is never used at an in-range index. -/

def snapshotSample {α : Type} [DecidableEq α] (d : α) (l : List α) (step : Nat) : List α :=
  ((List.range l.length).filter (fun i => i % step == 0)).map (fun i => l.getD i d)

def withOldest {α : Type} [DecidableEq α] (d : α) (l : List α) (sel : List α) : List α :=
  if l.getD 0 d ∈ sel then sel else l.getD 0 d :: sel

def withNewest {α : Type} [DecidableEq α] (d : α) (l : List α) (sel : List α) : List α :=
  if l.getD (l.length - 1) d ∈ sel then sel else sel ++ [l.getD (l.length - 1) d]

def selectedSnapshots {α : Type} [DecidableEq α] (d : α) (l : List α) : List α :=
  if 30 < l.length then withNewest d l (withOldest d l (snapshotSample d l (l.length / 30)))
  else l

/-! ### ImportManager (import-manager module, `src/unnamed/part_004`)

The orchestrator keeps a map of `ImportJobState` records (modelled as a list
in insertion order).  `initJob` sets both `blogTitle` and `feedUrl` to the
display name (the feed URL for network imports); `handleProgress` overwrites
`blogTitle` with the discovered blog title when a progress event carries one.
`isAlreadyImporting` compares the *blogTitle* field of each running job,
normalized, against the normalized requested URL — exactly as in the source.
Fields not used by these operations (counts, message, log, timestamps) are
elided. -/

inductive JobStatus where
  | running
  | completed
  | failed
deriving DecidableEq

structure ImportJobState where
  jobId : String
  blogTitle : String
  feedUrl : String
  status : JobStatus
deriving DecidableEq

/-- `url.toLowerCase().replace(/^https?:\/\//, "").replace(/\/+$/, "")`. -/
def normalizeUrl (s : String) : String :=
  let lowered := s.toList.map Char.toLower
  let noScheme :=
    if lowered.take 8 = "https://".toList then lowered.drop 8
    else if lowered.take 7 = "http://".toList then lowered.drop 7
    else lowered
  String.mk ((noScheme.reverse.dropWhile (fun c => c = '/')).reverse)

def isAlreadyImporting (jobs : List ImportJobState) (feedUrl : String) : Option String :=
  (jobs.find? fun j =>
    decide (j.status = JobStatus.running) &&
      decide (normalizeUrl j.blogTitle = normalizeUrl feedUrl)).map ImportJobState.jobId

def initJob (jobId displayName : String) : ImportJobState :=
  { jobId := jobId, blogTitle := displayName, feedUrl := displayName,
    status := JobStatus.running }

def startWaybackImport (jobs : List ImportJobState) (newJobId feedUrl : String) :
    Option String × List ImportJobState :=
  match isAlreadyImporting jobs feedUrl with
  | some _ => (none, jobs)
  | none => (some newJobId, jobs ++ [initJob newJobId feedUrl])

/-- Progress handling restricted to the field relevant here: the update of
`blogTitle` when the event carries a discovered title (the importer sends one
as soon as the feed metadata is known). -/
def handleProgress (jobs : List ImportJobState) (jobId : String)
    (newTitle : Option String) : List ImportJobState :=
  jobs.map fun j =>
    if j.jobId = jobId then { j with blogTitle := newTitle.getD j.blogTitle } else j

/-- State after starting an import of `https://example.com/feed`. -/
def dupBugState0 : List ImportJobState :=
  (startWaybackImport [] "job-1" "https://example.com/feed").2

/-- ... and after a progress event delivered the discovered blog title. -/
def dupBugState1 : List ImportJobState :=
  handleProgress dupBugState0 "job-1" (some "Example Blog")

/-! ### Article persistence and the (blog_id, link) unique index
(src/db/client.ts, lines 125-127; src/services/import/wayback-fetcher.ts,
lines 547-563)

`CREATE UNIQUE INDEX idx_articles_blog_link ON articles(blog_id, link)`
together with `INSERT OR IGNORE INTO articles ...` means an insert whose
(blog_id, link) pair is already present leaves the table unchanged.  Only the
two indexed columns are modelled; the remaining columns do not affect
conflict behaviour (the `id` primary key is a fresh UUID on every insert). -/

structure ArticleRow where
  blogId : String
  link : String
deriving DecidableEq

def articleKeyPresent (t : List ArticleRow) (b l : String) : Bool :=
  t.any fun r => decide (r.blogId = b) && decide (r.link = l)

def insertOrIgnoreArticle (t : List ArticleRow) (r : ArticleRow) : List ArticleRow :=
  if articleKeyPresent t r.blogId r.link then t else t ++ [r]

def insertArticles (t : List ArticleRow) (rs : List ArticleRow) : List ArticleRow :=
  rs.foldl insertOrIgnoreArticle t

/-- The schema invariant: no two rows share the (blog_id, link) pair. -/
def UniqueBlogLink (t : List ArticleRow) : Prop :=
  t.Pairwise fun a b => ¬(a.blogId = b.blogId ∧ a.link = b.link)

/-! ### importFromWayback, failure stage (src/services/import/wayback-fetcher.ts,
lines 205-254 and 361-429)

`fetchPaginatedFeed` returns null when the first page cannot be fetched
(`fetchWithRetry` gave null), when its body does not sniff as XML, or when it
cannot be parsed; it only throws if an exception escapes its internal
try/catch blocks.  `importFromWayback` turns a throw into one error message,
a null into another, an empty item list into a third, and only after these
checks inserts the Blog row and then the ImportJob row.  The network is the
`FirstPageOutcome`; the RSS parser is the oracle `parse`.  Pagination is
elided: it runs only after the first page parsed successfully and can only
add items, so it does not affect the failure stage. -/

structure DiscoveredPost where
  title : String
  link : String
deriving DecidableEq

structure ParsedFeed where
  title : String
  items : List DiscoveredPost
deriving DecidableEq

inductive FirstPageOutcome where
  | threw
  | unreachable
  | body (text : List Char)

/-- Prefix sniffing of the trimmed-at-start body:
`<?xml`, `<rss`, `<feed` or `<!DOCTYPE`. -/
def looksLikeXml (t : List Char) : Bool :=
  let tr := t.dropWhile fun c => c = ' ' || c = '\t' || c = '\n' || c = '\r'
  tr.take 5 = "<?xml".toList || tr.take 4 = "<rss".toList ||
    tr.take 5 = "<feed".toList || tr.take 9 = "<!DOCTYPE".toList

def fetchPaginatedFeed (page : FirstPageOutcome) (parse : List Char → Option ParsedFeed) :
    Except Unit (Option ParsedFeed) :=
  match page with
  | .threw => .error ()
  | .unreachable => .ok none
  | .body t => if looksLikeXml t then .ok (parse t) else .ok none

def errCouldNotFetch : String :=
  "Could not fetch the RSS feed. Please check the URL and your internet connection."

def errCouldNotFetchOrParse : String :=
  "Could not fetch or parse the RSS feed. Please check the URL is a valid RSS/Atom feed."

def errEmptyFeed : String :=
  "The feed was fetched but contains no articles. It may be empty or in an unsupported format."

inductive DbWrite where
  | insertBlog
  | insertImportJob
deriving DecidableEq

/-- The failure stage of `importFromWayback`: the result of the feed fetch is
mapped to a raised error (and no database writes), or the feed plus the first
two writes of the success path. -/
def importFromWaybackStart (page : FirstPageOutcome)
    (parse : List Char → Option ParsedFeed) :
    Except String ParsedFeed × List DbWrite :=
  match fetchPaginatedFeed page parse with
  | .error _ => (.error errCouldNotFetch, [])
  | .ok none => (.error errCouldNotFetchOrParse, [])
  | .ok (some feed) =>
    if feed.items.isEmpty then (.error errEmptyFeed, [])
    else (.ok feed, [DbWrite.insertBlog, DbWrite.insertImportJob])

/-- An RSS parser oracle that always fails; the counterexample inputs never
reach it. -/
def parseNone : List Char → Option ParsedFeed := fun _ => none

/-! ### Per-batch transaction bodies and tag inserts
(src/services/import/wayback-fetcher.ts lines 532-598,
src/services/import/history4feed-api.ts lines 110-158,
file importer lines 311-358)

Each importer persists a batch inside BEGIN TRANSACTION ... COMMIT with a
catch-all that ROLLBACKs the batch.  The batch body is a sequence of SQL
statements; the Wayback importer wraps each tag insert in its own try/catch
("so one bad tag doesn't kill the batch") while the History API and file
importers do not.  `runStmts` is the exception semantics of a statement list
(`throws link tag` says whether inserting that tag row throws);
`commitBatch` applies the transaction semantics: an escaped exception rolls
the whole batch back to nothing.  Links and tags are opaque values.  The
always-guarded FTS insert is elided — it behaves like `tryInsertTag`. -/

structure TaggedPost (α β : Type) where
  link : α
  tags : List β
deriving DecidableEq

inductive BatchStmt (α β : Type) where
  | insertArticle (link : α)
  | insertTag (link : α) (tag : β)
  | tryInsertTag (link : α) (tag : β)
deriving DecidableEq

inductive DbRow (α β : Type) where
  | article (link : α)
  | tag (link : α) (tag : β)
deriving DecidableEq

/-- The Wayback batch body: article insert, then each tag insert inside its
own try/catch. -/
def waybackBatchStmts {α β : Type} (batch : List (TaggedPost α β)) : List (BatchStmt α β) :=
  batch.flatMap fun p => BatchStmt.insertArticle p.link :: p.tags.map (BatchStmt.tryInsertTag p.link)

/-- The History API / file-importer batch body: article insert, then bare tag
inserts. -/
def fileBatchStmts {α β : Type} (batch : List (TaggedPost α β)) : List (BatchStmt α β) :=
  batch.flatMap fun p => BatchStmt.insertArticle p.link :: p.tags.map (BatchStmt.insertTag p.link)

def runStmts {α β : Type} (throws : α → β → Bool) :
    List (BatchStmt α β) → Except Unit (List (DbRow α β))
  | [] => .ok []
  | .insertArticle l :: rest => (runStmts throws rest).map (DbRow.article l :: ·)
  | .insertTag l t :: rest =>
    if throws l t then .error ()
    else (runStmts throws rest).map (DbRow.tag l t :: ·)
  | .tryInsertTag l t :: rest =>
    if throws l t then runStmts throws rest
    else (runStmts throws rest).map (DbRow.tag l t :: ·)

/-- COMMIT on success; ROLLBACK (no rows from this batch) when an exception
escapes the batch body. -/
def commitBatch {α β : Type} (throws : α → β → Bool)
    (stmts : List (BatchStmt α β)) : List (DbRow α β) :=
  match runStmts throws stmts with
  | .ok rows => rows
  | .error _ => []

/-- A tag insert throws exactly for the tag value 999. -/
def throwsTag999 : Nat → Nat → Bool := fun _ t => t == 999

/-- End-to-end scenario 5: a batch of 50 posts; post 7 carries the one tag
whose insert throws, every other post carries one good tag. -/
def batch50 : List (TaggedPost Nat Nat) :=
  (List.range 50).map fun i => ⟨i, [if i = 7 then 999 else i]⟩

/-! ### The batched persistence loop and its `imported` counter
(src/services/import/wayback-fetcher.ts, lines 526-607 and 637-658)

`for (i = 0; i < posts.length; i += batchSize)` slices the post list into
chunks of `batchSize = 50`, runs each chunk in a transaction, and executes
`imported += batch.length` after the try/catch — unconditionally, whether the
transaction committed or was rolled back.  The final `imported` value is
reported in the last progress event and written to the ImportJob record.
`failsBatch n` says whether the transaction of the n-th batch fails. -/

def chunksOf50 {α : Type} : List α → List (List α)
  | [] => []
  | x :: xs => (x :: xs).take 50 :: chunksOf50 ((x :: xs).drop 50)
termination_by l => l.length
decreasing_by simp [List.length_drop]; omega

/-- Runs the batches from index `idx` on: the first component is the final
`imported` counter contribution, the second the rows actually committed. -/
def runBatchesFrom {α : Type} (failsBatch : Nat → Bool) (idx : Nat) :
    List (List α) → Nat × List α
  | [] => (0, [])
  | b :: rest =>
    let r := runBatchesFrom failsBatch (idx + 1) rest
    (b.length + r.1, (if failsBatch idx then [] else b) ++ r.2)

def importBatchesResult {α : Type} (failsBatch : Nat → Bool) (posts : List α) :
    Nat × List α :=
  runBatchesFrom failsBatch 0 (chunksOf50 posts)

/-! ### The backlog summarization loop (src/hooks/useSummaryGeneration.ts,
lines 32-54)

The hook walks the pending articles one at a time; the body that summarizes
and persists one article sits in a try/catch whose handler logs and
continues with the next article.  `runOne` is the outcome of that body for a
given article (`.error` = summarize or the UPDATE threw); the loop returns
the successfully persisted summaries in order. -/

def backlogLoop {α β : Type} (runOne : α → Except String β) : List α → List β
  | [] => []
  | a :: rest =>
    match runOne a with
    | .ok u => u :: backlogLoop runOne rest
    | .error _ => backlogLoop runOne rest

/-- A concrete per-article outcome: article 1 fails, every other article
yields its own number as summary. -/
def runOneW : Nat → Except String Nat := fun n =>
  if n = 1 then .error "summarize failed" else .ok n

/-! ### TextRank (src/services/nlp/textrank.ts)

Texts are `List Char`.  `Char.toLower` models `toLowerCase`; the JavaScript
whitespace class is modelled by the ASCII whitespace characters; regex
`/[^.!?\n]+[.!?\n]+/g` is the state machine `sentenceMatchesAux`
(skip unmatched terminators, consume a nonempty run of non-terminators, then
a nonempty run of terminators; a trailing run without terminator does not
match).  `s.split(/\s+/)` on a trimmed string yields its maximal
non-whitespace runs (`wordChunks`), except that the empty string yields one
element.  JavaScript numbers are modelled by `ℚ`. -/

def isWsChar (c : Char) : Bool := c = ' ' || c = '\t' || c = '\n' || c = '\r'

/-- A character kept by `replace(/[^a-z0-9\s]/g, "")` after lowercasing,
besides whitespace. -/
def isTokenChar (c : Char) : Bool := ('a' ≤ c && c ≤ 'z') || ('0' ≤ c && c ≤ '9')

def wordChunksAux : List Char → List Char → List (List Char)
  | [], acc => if acc.isEmpty then [] else [acc.reverse]
  | c :: rest, acc =>
    if isWsChar c then
      if acc.isEmpty then wordChunksAux rest [] else acc.reverse :: wordChunksAux rest []
    else wordChunksAux rest (c :: acc)

/-- The maximal non-whitespace runs of a character list, in order. -/
def wordChunks (l : List Char) : List (List Char) := wordChunksAux l []

def STOP_WORDS : List String := [
  "a", "an", "the", "and", "or", "but", "in", "on", "at", "to", "for",
  "of", "with", "by", "from", "is", "was", "are", "were", "be", "been",
  "being", "have", "has", "had", "do", "does", "did", "will", "would",
  "could", "should", "may", "might", "shall", "can", "this", "that",
  "these", "those", "i", "you", "he", "she", "it", "we", "they", "me",
  "him", "her", "us", "them", "my", "your", "his", "its", "our", "their",
  "what", "which", "who", "whom", "how", "when", "where", "why", "not",
  "no", "so", "if", "then", "than", "too", "very", "just", "about",
  "up", "out", "as", "into", "also", "more", "some", "such", "there"]

def tokenize (text : List Char) : List (List Char) :=
  let cleaned := (text.map Char.toLower).filter fun c => isTokenChar c || isWsChar c
  (wordChunks cleaned).filter fun w =>
    2 < w.length && !(STOP_WORDS.contains (String.mk w))

def isSentenceEnd (c : Char) : Bool := c = '.' || c = '!' || c = '?' || c = '\n'

def sentenceMatchesAux : List Char → List Char → Bool → List (List Char)
  | [], acc, inTerm => if inTerm then [acc.reverse] else []
  | c :: rest, acc, inTerm =>
    if isSentenceEnd c then
      if acc.isEmpty then sentenceMatchesAux rest [] false
      else sentenceMatchesAux rest (c :: acc) true
    else
      if inTerm then acc.reverse :: sentenceMatchesAux rest [c] false
      else sentenceMatchesAux rest (c :: acc) false

/-- All matches of `/[^.!?\n]+[.!?\n]+/g`. -/
def sentenceMatches (l : List Char) : List (List Char) := sentenceMatchesAux l [] false

def trimChars (l : List Char) : List Char :=
  ((l.dropWhile isWsChar).reverse.dropWhile isWsChar).reverse

/-- `s.split(/\s+/).length` for an already-trimmed `s`. -/
def sentenceWordCount (l : List Char) : Nat :=
  if l.isEmpty then 1 else (wordChunks l).length

def splitSentences (text : List Char) : List (List Char) :=
  if (sentenceMatches text).isEmpty then [text]
  else ((sentenceMatches text).map trimChars).filter fun s =>
    4 ≤ sentenceWordCount s && sentenceWordCount s ≤ 100

def jaccardSimilarity (a b : Finset (List Char)) : ℚ :=
  if a.card = 0 ∨ b.card = 0 then 0
  else
    let inter := (a ∩ b).card
    let uni := a.card + b.card - inter
    if uni = 0 then 0 else (inter : ℚ) / (uni : ℚ)

/-- `new Set(tokenize(s))`. -/
def wordSet (s : List Char) : Finset (List Char) := (tokenize s).toFinset

/-- The similarity matrix built in `summarize`: zero on the diagonal, Jaccard
similarity of the token sets elsewhere. -/
def simMatrix (sentences : List (List Char)) :
    Fin sentences.length → Fin sentences.length → ℚ := fun i j =>
  if i = j then 0
  else jaccardSimilarity (wordSet (sentences.get i)) (wordSet (sentences.get j))

/-- The row sum `outSum` of the `pagerank` inner loop. -/
def outSum (n : Nat) (m : Fin n → Fin n → ℚ) (i : Fin n) : ℚ := ∑ j, m i j

/-- One power iteration: `newScores` starts at `(1-damping)/n` and every row
with positive `outSum` distributes `damping * scores[i] * matrix[i][j]/outSum`. -/
def pagerankStep (n : Nat) (m : Fin n → Fin n → ℚ) (damping : ℚ)
    (scores : Fin n → ℚ) : Fin n → ℚ := fun j =>
  (1 - damping) / (n : ℚ) +
    ∑ i, (if 0 < outSum n m i then damping * scores i * (m i j / outSum n m i) else 0)

/-- The scores after `t` iterations, starting from the uniform `1/n`. -/
def pagerankIter (n : Nat) (m : Fin n → Fin n → ℚ) (damping : ℚ) :
    Nat → Fin n → ℚ
  | 0 => fun _ => 1 / (n : ℚ)
  | t + 1 => pagerankStep n m damping (pagerankIter n m damping t)

def pagerank (n : Nat) (m : Fin n → Fin n → ℚ) (damping : ℚ) (iterations : Nat) :
    Fin n → ℚ :=
  pagerankIter n m damping iterations

/-- `array.join(" ")`. -/
def joinSpace (l : List (List Char)) : List Char := (l.intersperse [' ']).flatten

/-- `scores.map((score, idx) => ({score, idx}))`. -/
def scorePairs (sentences : List (List Char)) : List (ℚ × Fin sentences.length) :=
  (List.finRange sentences.length).map fun i =>
    (pagerank sentences.length (simMatrix sentences) (85/100) 20 i, i)

/-- `.sort((a,b) => b.score - a.score).slice(0, numSentences)
.sort((a,b) => a.idx - b.idx).map(r => r.idx)`: the indices of the selected
sentences, in document order. -/
def rankedIndices (sentences : List (List Char)) (numSentences : Nat) :
    List (Fin sentences.length) :=
  ((((scorePairs sentences).mergeSort fun a b => decide (b.1 ≤ a.1)).take
      numSentences).mergeSort fun a b => decide (a.2 ≤ b.2)).map Prod.snd

def summarize (text : List Char) (numSentences : Nat) : List Char :=
  if (splitSentences text).length ≤ numSentences then joinSpace (splitSentences text)
  else
    joinSpace ((rankedIndices (splitSentences text) numSentences).map
      fun i => (splitSentences text).get i)

/-- The similarity matrix of two sentences with no token in common. -/
def mZero2 : Fin 2 → Fin 2 → ℚ := fun _ _ => 0

/-- A 2x2 matrix whose second column is zero but whose rows both sum to 1. -/
def mW2 : Fin 2 → Fin 2 → ℚ := fun _ j => if j = 0 then 1 else 0

/-- A two-sentence text for the summarizer witness. -/
def twoSentenceText : List Char :=
  "Alpha beta gamma delta epsilon. One two three four five six.".toList

/-! ## Theorems for claim C4 (429 backoff and retry bound) -/

theorem fetchWithRetryAux_429_run (oracle : Nat → AttemptOutcome) (r : HttpResponse)
    (k : Nat) :
    ∀ remaining attempt, (∀ i, i < k → is429 (oracle (attempt + i)) = true) →
      k < remaining → oracle (attempt + k) = .resp r → respOk r = true →
      fetchWithRetryAux oracle remaining attempt =
        (some r, (List.range k).map fun i => RATE_LIMIT_MS * 2 ^ (attempt + i + 1)) := by
  induction k with
  | zero =>
    intro remaining attempt _ hk hok hr
    obtain ⟨rem, rfl⟩ : ∃ rem, remaining = rem + 1 := ⟨remaining - 1, by omega⟩
    have hok0 : oracle attempt = .resp r := by simpa using hok
    have hne : ¬ r.status = 429 := by
      have h2 : r.status ≤ 299 := by
        have := hr
        unfold respOk at this
        simp only [Bool.and_eq_true, decide_eq_true_eq] at this
        exact this.2
      omega
    simp [fetchWithRetryAux, hok0, hne, hr]
  | succ k ih =>
    intro remaining attempt h429 hk hok hr
    obtain ⟨rem, rfl⟩ : ∃ rem, remaining = rem + 1 := ⟨remaining - 1, by omega⟩
    have h0 : is429 (oracle attempt) = true := by simpa using h429 0 (by omega)
    obtain ⟨r0, hr0, hs0⟩ : ∃ r0, oracle attempt = .resp r0 ∧ r0.status = 429 := by
      cases ho : oracle attempt with
      | netError => rw [ho] at h0; simp [is429] at h0
      | resp r0 =>
        rw [ho] at h0
        simp only [is429, decide_eq_true_eq] at h0
        exact ⟨r0, rfl, h0⟩
    have hrec := ih rem (attempt + 1)
      (fun i hi => by
        have := h429 (i + 1) (by omega)
        rwa [show attempt + (i + 1) = attempt + 1 + i by omega] at this)
      (by omega)
      (by rwa [show attempt + 1 + k = attempt + (k + 1) by omega])
      hr
    simp only [fetchWithRetryAux, hr0, hs0, hrec, Prod.mk.injEq, if_true]
    refine ⟨trivial, ?_⟩
    rw [List.range_succ_eq_map, List.map_cons, List.map_map]
    congr 1
    apply List.map_congr_left
    intro a _
    simp only [Function.comp_apply]
    congr 2
    omega

theorem fetchWithRetryAux_429_all (oracle : Nat → AttemptOutcome) :
    ∀ remaining attempt, (∀ i, i < remaining → is429 (oracle (attempt + i)) = true) →
      fetchWithRetryAux oracle remaining attempt =
        (none, (List.range remaining).map fun i => RATE_LIMIT_MS * 2 ^ (attempt + i + 1)) := by
  intro remaining
  induction remaining with
  | zero => intro attempt _; simp [fetchWithRetryAux]
  | succ rem ih =>
    intro attempt h429
    have h0 : is429 (oracle attempt) = true := by simpa using h429 0 (by omega)
    obtain ⟨r0, hr0, hs0⟩ : ∃ r0, oracle attempt = .resp r0 ∧ r0.status = 429 := by
      cases ho : oracle attempt with
      | netError => rw [ho] at h0; simp [is429] at h0
      | resp r0 =>
        rw [ho] at h0
        simp only [is429, decide_eq_true_eq] at h0
        exact ⟨r0, rfl, h0⟩
    have hrec := ih (attempt + 1) (fun i hi => by
      have := h429 (i + 1) (by omega)
      rwa [show attempt + (i + 1) = attempt + 1 + i by omega] at this)
    simp only [fetchWithRetryAux, hr0, hs0, hrec, Prod.mk.injEq, if_true]
    refine ⟨trivial, ?_⟩
    rw [List.range_succ_eq_map, List.map_cons, List.map_map]
    congr 1
    apply List.map_congr_left
    intro a _
    simp only [Function.comp_apply]
    congr 2
    omega

/-- Claim C4, as stated, is false: the end-to-end scenario "server returns 429
three times and then succeeds" does NOT succeed under `maxRetries = 3` (the
default), because three 429 responses exhaust the three total attempts and
`fetchWithRetry` returns null.  The sleep schedule is the exponential backoff
1100*2, 1100*4, 1100*8 ms. -/
theorem fetchWithRetry_counterexample :
    (fetchWithRetry oracle429x3 3).1 = none ∧
      (fetchWithRetry oracle429x3 3).2 = [2200, 4400, 8800] := by decide

/-- Claim C4 (amended): on HTTP 429 the fetcher backs off exponentially
(`RATE_LIMIT_MS * 2^(attempt+1)` before retry number `attempt+1`), bounded by
`maxRetries` total attempts.  If the server returns 429 on the first `k`
attempts with `k < maxRetries` and then succeeds, the request succeeds after
the backoff schedule; if it returns 429 on all `maxRetries` attempts the
request is abandoned (`none`) after the full backoff schedule.  (In
particular, with the default `maxRetries = 3` the request survives at most
two 429 responses, not three.) -/
theorem fetchWithRetry_claim (oracle : Nat → AttemptOutcome) (r : HttpResponse)
    (k maxRetries : Nat) :
    ((∀ i, i < k → is429 (oracle i) = true) → k < maxRetries →
        oracle k = .resp r → respOk r = true →
        fetchWithRetry oracle maxRetries =
          (some r, (List.range k).map fun i => RATE_LIMIT_MS * 2 ^ (i + 1)))
    ∧ ((∀ i, i < maxRetries → is429 (oracle i) = true) →
        fetchWithRetry oracle maxRetries =
          (none, (List.range maxRetries).map fun i => RATE_LIMIT_MS * 2 ^ (i + 1))) := by
  constructor
  · intro h429 hk hok hr
    have := fetchWithRetryAux_429_run oracle r k maxRetries 0
      (by simpa using h429) hk (by simpa using hok) hr
    simpa using this
  · intro h429
    have := fetchWithRetryAux_429_all oracle maxRetries 0 (by simpa using h429)
    simpa using this

/-- Witness for `fetchWithRetry_claim`: two 429 responses followed by a 200
do succeed under `maxRetries = 3`, with backoff 2200 then 4400 ms. -/
theorem fetchWithRetry_claim_witness :
    fetchWithRetry oracle429x2 3 =
      (some ⟨200, "ok"⟩, (List.range 2).map fun i => RATE_LIMIT_MS * 2 ^ (i + 1)) :=
  (fetchWithRetry_claim oracle429x2 ⟨200, "ok"⟩ 2 3).1
    (by decide) (by decide) (by decide) (by decide)

/-! ## Theorems for claim C5 (snapshot down-sampling invariants) -/

/-- Claim C5, as stated, is false: the selection's size can exceed the cap
of 30.  For 31 snapshots the sampling step is `31 / 30 = 1`, so all 31
timestamps are selected. -/
theorem selectedSnapshots_counterexample :
    30 < (List.range 31).length ∧ (selectedSnapshots 0 (List.range 31)).length = 31 := by
  decide

/-- Claim C5 (amended): for every snapshot list longer than the cap of 30,
the down-sampled selection always contains the oldest and the newest
timestamps; its size, however, may exceed the cap (for 31 snapshots all 31
are selected). -/
theorem selectedSnapshots_claim {α : Type} [DecidableEq α] (d : α) (l : List α)
    (h : 30 < l.length) :
    l.getD 0 d ∈ selectedSnapshots d l ∧
      l.getD (l.length - 1) d ∈ selectedSnapshots d l := by
  have hstep : 0 < l.length / 30 := Nat.div_pos (by omega) (by omega)
  have h0sel : l.getD 0 d ∈ snapshotSample d l (l.length / 30) := by
    refine List.mem_map.mpr ⟨0, ?_, rfl⟩
    refine List.mem_filter.mpr ⟨List.mem_range.mpr (by omega), ?_⟩
    simp
  have h0old : withOldest d l (snapshotSample d l (l.length / 30)) =
      snapshotSample d l (l.length / 30) := by
    unfold withOldest
    rw [if_pos h0sel]
  unfold selectedSnapshots
  rw [if_pos h, h0old]
  unfold withNewest
  by_cases hlast : l.getD (l.length - 1) d ∈ snapshotSample d l (l.length / 30)
  · rw [if_pos hlast]
    exact ⟨h0sel, hlast⟩
  · rw [if_neg hlast]
    exact ⟨List.mem_append_left _ h0sel, List.mem_append_right _ (List.mem_singleton.mpr rfl)⟩

/-- Witness for `selectedSnapshots_claim` at a list of 31 snapshots. -/
theorem selectedSnapshots_claim_witness :
    (List.range 31).getD 0 0 ∈ selectedSnapshots 0 (List.range 31) ∧
      (List.range 31).getD ((List.range 31).length - 1) 0 ∈
        selectedSnapshots 0 (List.range 31) :=
  selectedSnapshots_claim 0 (List.range 31) (by decide)

/-! ## Theorem for claim C1 (duplicate-start rejection) -/

/-- Claim C1 is contradicted by the code: `isAlreadyImporting` normalizes and
compares the job's `blogTitle`, not its `feedUrl` (its own doc comment says it
checks "for a given feed URL").  `blogTitle` initially equals the feed URL, so
a duplicate start is rejected right after the first start — but as soon as a
progress event delivers the discovered blog title, `blogTitle` no longer
normalizes to the URL and a second start of the very same URL returns a fresh
job id and appends a second job record, while the first job is still running.
This theorem evaluates the model at that failing input: after the title
update, a running job whose `feedUrl` normalizes to the requested URL exists,
yet `startWaybackImport` returns a new id and the job list grows to two. -/
theorem importManager_dupCheck_bug :
    (dupBugState1.any fun j =>
        decide (j.status = JobStatus.running) &&
          decide (normalizeUrl j.feedUrl = normalizeUrl "https://example.com/feed")) = true
    ∧ (startWaybackImport dupBugState0 "job-2" "https://example.com/feed").1 = none
    ∧ (startWaybackImport dupBugState1 "job-2" "https://example.com/feed").1 = some "job-2"
    ∧ (startWaybackImport dupBugState1 "job-2" "https://example.com/feed").2.length = 2 := by
  exact ⟨rfl, rfl, rfl, rfl⟩

/-! ## Theorems for claim C2 ((blog_id, link) uniqueness and idempotence) -/

theorem uniqueBlogLink_insertOrIgnore (t : List ArticleRow) (r : ArticleRow)
    (h : UniqueBlogLink t) : UniqueBlogLink (insertOrIgnoreArticle t r) := by
  unfold insertOrIgnoreArticle
  by_cases hp : articleKeyPresent t r.blogId r.link = true
  · rw [if_pos hp]; exact h
  · rw [if_neg hp]
    rw [UniqueBlogLink, List.pairwise_append]
    refine ⟨h, List.pairwise_singleton _ _, ?_⟩
    intro a ha b hb
    rw [List.mem_singleton] at hb
    subst hb
    intro hab
    apply hp
    unfold articleKeyPresent
    rw [List.any_eq_true]
    exact ⟨a, ha, by simp [hab.1, hab.2]⟩

theorem keyPresent_insertOrIgnore_self (t : List ArticleRow) (r : ArticleRow) :
    articleKeyPresent (insertOrIgnoreArticle t r) r.blogId r.link = true := by
  unfold insertOrIgnoreArticle
  by_cases hp : articleKeyPresent t r.blogId r.link = true
  · rw [if_pos hp]; exact hp
  · rw [if_neg hp]
    unfold articleKeyPresent
    rw [List.any_append]
    simp

theorem keyPresent_mono (t : List ArticleRow) (r : ArticleRow) (b l : String)
    (h : articleKeyPresent t b l = true) :
    articleKeyPresent (insertOrIgnoreArticle t r) b l = true := by
  unfold insertOrIgnoreArticle
  by_cases hp : articleKeyPresent t r.blogId r.link = true
  · rw [if_pos hp]; exact h
  · rw [if_neg hp]
    unfold articleKeyPresent at h ⊢
    rw [List.any_append, h]
    rfl

theorem keyPresent_insertArticles_mono (t : List ArticleRow) (rs : List ArticleRow)
    (b l : String) (h : articleKeyPresent t b l = true) :
    articleKeyPresent (insertArticles t rs) b l = true := by
  induction rs generalizing t with
  | nil => exact h
  | cons r rs ih => exact ih _ (keyPresent_mono _ _ _ _ h)

theorem keyPresent_after_insertArticles (t : List ArticleRow) (rs : List ArticleRow) :
    ∀ r ∈ rs, articleKeyPresent (insertArticles t rs) r.blogId r.link = true := by
  induction rs generalizing t with
  | nil => intro r hr; cases hr
  | cons x rs ih =>
    intro r hr
    rcases List.mem_cons.mp hr with h | h
    · subst h
      show articleKeyPresent (insertArticles (insertOrIgnoreArticle t r) rs)
        r.blogId r.link = true
      exact keyPresent_insertArticles_mono _ _ _ _ (keyPresent_insertOrIgnore_self t r)
    · exact ih _ r h

theorem insertOrIgnore_of_present (t : List ArticleRow) (r : ArticleRow)
    (h : articleKeyPresent t r.blogId r.link = true) :
    insertOrIgnoreArticle t r = t := by
  unfold insertOrIgnoreArticle
  rw [if_pos h]

theorem insertArticles_of_present (t : List ArticleRow) (rs : List ArticleRow)
    (h : ∀ r ∈ rs, articleKeyPresent t r.blogId r.link = true) :
    insertArticles t rs = t := by
  induction rs with
  | nil => rfl
  | cons x rs ih =>
    show insertArticles (insertOrIgnoreArticle t x) rs = t
    rw [insertOrIgnore_of_present t x (h x (by simp))]
    exact ih fun r hr => h r (by simp [hr])

theorem uniqueBlogLink_insertArticles (t rs : List ArticleRow) (h : UniqueBlogLink t) :
    UniqueBlogLink (insertArticles t rs) := by
  induction rs generalizing t with
  | nil => exact h
  | cons x rs ih => exact ih _ (uniqueBlogLink_insertOrIgnore t x h)

/-- Claim C2, confirmed: starting from any table satisfying the
(blog_id, link) uniqueness invariant, inserting any batch of discovered posts
through the importers' `INSERT OR IGNORE` path preserves the invariant, and
re-running the identical insert batch a second time (importing the same feed
twice into the same blog scope) leaves the table exactly unchanged — duplicate
discovery is idempotent and never creates a duplicate (blog_id, link) row. -/
theorem articlesUnique_claim (t rs : List ArticleRow) (h : UniqueBlogLink t) :
    UniqueBlogLink (insertArticles t rs) ∧
      insertArticles (insertArticles t rs) rs = insertArticles t rs :=
  ⟨uniqueBlogLink_insertArticles t rs h,
   insertArticles_of_present _ rs (keyPresent_after_insertArticles t rs)⟩

/-- Witness for `articlesUnique_claim`: a batch with a repeated link against
the empty table. -/
theorem articlesUnique_claim_witness :
    UniqueBlogLink (insertArticles [] [⟨"b", "l1"⟩, ⟨"b", "l1"⟩, ⟨"b", "l2"⟩]) ∧
      insertArticles (insertArticles [] [⟨"b", "l1"⟩, ⟨"b", "l1"⟩, ⟨"b", "l2"⟩])
          [⟨"b", "l1"⟩, ⟨"b", "l1"⟩, ⟨"b", "l2"⟩] =
        insertArticles [] [⟨"b", "l1"⟩, ⟨"b", "l1"⟩, ⟨"b", "l2"⟩] :=
  articlesUnique_claim [] _ List.Pairwise.nil

/-! ## Theorems for claim C3 (pre-write failure semantics) -/

/-- Claim C3, as stated, is false in one respect: the raised error does NOT
distinguish "unreachable" from "not a feed".  An unreachable feed
(`fetchWithRetry` returned null) and an HTML error page (body fails the XML
prefix sniff) both make `fetchPaginatedFeed` return null, and
`importFromWayback` maps both to the same error message. -/
theorem waybackErrors_counterexample :
    (importFromWaybackStart FirstPageOutcome.unreachable parseNone).1 =
        Except.error errCouldNotFetchOrParse ∧
      (importFromWaybackStart
          (FirstPageOutcome.body "<html><body>Server error</body></html>".toList)
          parseNone).1 =
        Except.error errCouldNotFetchOrParse :=
  ⟨rfl, rfl⟩

/-- Claim C3 (amended): whenever the Wayback import fails at the feed stage
(unreachable, unparseable/not-a-feed, or empty feed), the failure is raised
before any database write: no Blog or ImportJob row has been inserted.  The
empty-feed error is distinct from the fetch/parse errors, but unreachable and
not-a-feed share one error message (only the rare case of an exception
escaping `fetchPaginatedFeed` gets the separate "check your internet
connection" message). -/
theorem waybackErrors_claim (page : FirstPageOutcome)
    (parse : List Char → Option ParsedFeed) :
    (∀ e, (importFromWaybackStart page parse).1 = .error e →
        (importFromWaybackStart page parse).2 = [])
    ∧ errEmptyFeed ≠ errCouldNotFetchOrParse
    ∧ errEmptyFeed ≠ errCouldNotFetch
    ∧ errCouldNotFetch ≠ errCouldNotFetchOrParse := by
  refine ⟨?_, by decide, by decide, by decide⟩
  intro e he
  unfold importFromWaybackStart at he ⊢
  cases hf : fetchPaginatedFeed page parse with
  | error u => rfl
  | ok o =>
    cases o with
    | none => rfl
    | some feed =>
      rw [hf] at he
      by_cases hi : feed.items.isEmpty
      · simp [hi]
      · simp [hi] at he

/-- Witness for `waybackErrors_claim`: the unreachable-feed failure leaves the
database untouched. -/
theorem waybackErrors_claim_witness :
    (importFromWaybackStart FirstPageOutcome.unreachable parseNone).2 = [] :=
  (waybackErrors_claim FirstPageOutcome.unreachable parseNone).1
    errCouldNotFetchOrParse rfl

/-! ## Theorems for claim C6 (tag-insert failure isolation) -/

theorem runStmts_tryTags {α β : Type} (throws : α → β → Bool) (l : α) (ts : List β)
    (rest : List (BatchStmt α β)) (r : List (DbRow α β))
    (h : runStmts throws rest = .ok r) :
    runStmts throws (ts.map (BatchStmt.tryInsertTag l) ++ rest) =
      .ok ((ts.filter fun t => !(throws l t)).map (DbRow.tag l) ++ r) := by
  induction ts with
  | nil => simpa using h
  | cons t ts ih =>
    show (if throws l t then
        runStmts throws (ts.map (BatchStmt.tryInsertTag l) ++ rest)
      else
        (runStmts throws (ts.map (BatchStmt.tryInsertTag l) ++ rest)).map
          (DbRow.tag l t :: ·)) =
      Except.ok (((t :: ts).filter fun t => !(throws l t)).map (DbRow.tag l) ++ r)
    by_cases ht : throws l t
    · rw [if_pos ht, ih]
      simp [ht]
    · rw [if_neg ht, ih]
      simp [Except.map, ht]

theorem runStmts_waybackBatch {α β : Type} (throws : α → β → Bool)
    (batch : List (TaggedPost α β)) :
    runStmts throws (waybackBatchStmts batch) =
      .ok (batch.flatMap fun p => DbRow.article p.link ::
        (p.tags.filter fun t => !(throws p.link t)).map (DbRow.tag p.link)) := by
  induction batch with
  | nil => rfl
  | cons p bs ih =>
    show runStmts throws
        ((BatchStmt.insertArticle p.link :: p.tags.map (BatchStmt.tryInsertTag p.link)) ++
          waybackBatchStmts bs) = _
    rw [List.cons_append]
    show (runStmts throws (p.tags.map (BatchStmt.tryInsertTag p.link) ++
        waybackBatchStmts bs)).map (DbRow.article p.link :: ·) = _
    rw [runStmts_tryTags throws p.link p.tags _ _ ih]
    rfl

theorem runStmts_append_error {α β : Type} (throws : α → β → Bool)
    (stmts rest : List (BatchStmt α β)) (h : runStmts throws rest = .error ()) :
    runStmts throws (stmts ++ rest) = .error () := by
  induction stmts with
  | nil => simpa using h
  | cons s stmts ih =>
    cases s with
    | insertArticle l =>
      show (runStmts throws (stmts ++ rest)).map (DbRow.article l :: ·) = _
      rw [ih]
      rfl
    | insertTag l t =>
      show (if throws l t then Except.error () else
          (runStmts throws (stmts ++ rest)).map (DbRow.tag l t :: ·)) = _
      by_cases ht : throws l t
      · rw [if_pos ht]
      · rw [if_neg ht, ih]
        rfl
    | tryInsertTag l t =>
      show (if throws l t then runStmts throws (stmts ++ rest) else
          (runStmts throws (stmts ++ rest)).map (DbRow.tag l t :: ·)) = _
      by_cases ht : throws l t
      · rw [if_pos ht]
        exact ih
      · rw [if_neg ht, ih]
        rfl

theorem runStmts_fileTags_throw {α β : Type} (throws : α → β → Bool) (l : α)
    (ts : List β) (rest : List (BatchStmt α β)) (h : ts.any (throws l) = true) :
    runStmts throws (ts.map (BatchStmt.insertTag l) ++ rest) = .error () := by
  induction ts with
  | nil => cases h
  | cons t ts ih =>
    show (if throws l t then Except.error () else
        (runStmts throws (ts.map (BatchStmt.insertTag l) ++ rest)).map
          (DbRow.tag l t :: ·)) = _
    by_cases ht : throws l t
    · rw [if_pos ht]
    · rw [if_neg ht]
      have h' : ts.any (throws l) = true := by simpa [List.any_cons, ht] using h
      rw [ih h']
      rfl

theorem runStmts_fileBatch_throws {α β : Type} (throws : α → β → Bool)
    (batch : List (TaggedPost α β))
    (h : (batch.any fun p => p.tags.any (throws p.link)) = true) :
    runStmts throws (fileBatchStmts batch) = .error () := by
  induction batch with
  | nil => cases h
  | cons p bs ih =>
    show runStmts throws
        ((BatchStmt.insertArticle p.link :: p.tags.map (BatchStmt.insertTag p.link)) ++
          fileBatchStmts bs) = _
    rw [List.cons_append]
    show (runStmts throws (p.tags.map (BatchStmt.insertTag p.link) ++
        fileBatchStmts bs)).map (DbRow.article p.link :: ·) = _
    by_cases hp : p.tags.any (throws p.link) = true
    · rw [runStmts_fileTags_throw throws p.link p.tags _ hp]
      rfl
    · have hbs : (bs.any fun p => p.tags.any (throws p.link)) = true := by
        simpa [List.any_cons, hp] using h
      rw [runStmts_append_error throws _ _ (ih hbs)]
      rfl

/-- Claim C6, as stated, is false: only the Wayback importer wraps each tag
insert in its own try/catch.  In the file importer (and the History API
importer, whose batch body is identical), a single throwing tag insert
escapes to the batch-level catch, which ROLLBACKs the whole transaction: for
the scenario-5 batch of 50 posts where one post's tag insert throws, zero of
the 50 posts are committed, not 49. -/
theorem tagInsert_counterexample :
    batch50.length = 50 ∧
      (batch50.filter fun p => p.tags.any (throwsTag999 p.link)).length = 1 ∧
      commitBatch throwsTag999 (fileBatchStmts batch50) = [] := by
  decide

/-- Claim C6 (amended): in the Wayback importer a throwing tag insert is
logged and skipped and the rest of the batch still commits (every article row
and every non-throwing tag row of the batch is committed); in the History
API and file importers a throwing tag insert aborts and rolls back its entire
batch, committing nothing from that batch (later batches still run). -/
theorem tagInsert_claim {α β : Type} (throws : α → β → Bool)
    (batch : List (TaggedPost α β)) :
    commitBatch throws (waybackBatchStmts batch) =
      batch.flatMap (fun p => DbRow.article p.link ::
        (p.tags.filter fun t => !(throws p.link t)).map (DbRow.tag p.link))
    ∧ ((batch.any fun p => p.tags.any (throws p.link)) = true →
        commitBatch throws (fileBatchStmts batch) = []) := by
  constructor
  · unfold commitBatch
    rw [runStmts_waybackBatch]
  · intro h
    unfold commitBatch
    rw [runStmts_fileBatch_throws throws batch h]

/-- Witness for `tagInsert_claim`: a two-post batch whose second post carries
the throwing tag. -/
theorem tagInsert_claim_witness :
    commitBatch throwsTag999 (waybackBatchStmts [⟨1, [5]⟩, ⟨2, [999]⟩]) =
      ([⟨1, [5]⟩, ⟨2, [999]⟩] : List (TaggedPost Nat Nat)).flatMap (fun p =>
        DbRow.article p.link ::
          (p.tags.filter fun t => !(throwsTag999 p.link t)).map (DbRow.tag p.link))
    ∧ commitBatch throwsTag999 (fileBatchStmts [⟨1, [5]⟩, ⟨2, [999]⟩]) = [] :=
  ⟨(tagInsert_claim throwsTag999 _).1, (tagInsert_claim throwsTag999 _).2 (by decide)⟩

/-! ## Theorems for claim C9 (backlog summarization failure isolation) -/

theorem backlogLoop_append {α β : Type} (runOne : α → Except String β)
    (l₁ l₂ : List α) :
    backlogLoop runOne (l₁ ++ l₂) = backlogLoop runOne l₁ ++ backlogLoop runOne l₂ := by
  induction l₁ with
  | nil => rfl
  | cons a rest ih =>
    simp only [List.cons_append, backlogLoop]
    cases runOne a <;> simp [ih]

theorem backlogLoop_mem_ok {α β : Type} (runOne : α → Except String β)
    (ys : List α) (y : α) (u : β) (hy : y ∈ ys) (hu : runOne y = .ok u) :
    u ∈ backlogLoop runOne ys := by
  induction ys with
  | nil => cases hy
  | cons a rest ih =>
    rcases List.mem_cons.mp hy with h | h
    · subst h
      simp only [backlogLoop, hu]
      exact List.mem_cons_self _ _
    · cases hr : runOne a with
      | ok v =>
        simp only [backlogLoop, hr]
        exact List.mem_cons_of_mem _ (ih h)
      | error e =>
        simp only [backlogLoop, hr]
        exact ih h

/-- Claim C9, confirmed (for the operative backlog loop in
`src/hooks/useSummaryGeneration.ts`; the uncalled `generateSummariesBatch`
in textrank.ts has no per-article catch): a failure while summarizing or
persisting one article does not block the rest of the backlog — the loop's
result is exactly what the remaining articles produce, and every remaining
article's successful summary is still persisted. -/
theorem backlog_claim {α β : Type} (runOne : α → Except String β) (xs ys : List α)
    (a : α) (e : String) (hfail : runOne a = .error e) :
    backlogLoop runOne (xs ++ a :: ys) = backlogLoop runOne xs ++ backlogLoop runOne ys
    ∧ ∀ y ∈ ys, ∀ u, runOne y = .ok u → u ∈ backlogLoop runOne (xs ++ a :: ys) := by
  have h1 : backlogLoop runOne (xs ++ a :: ys) =
      backlogLoop runOne xs ++ backlogLoop runOne ys := by
    rw [backlogLoop_append]
    congr 1
    simp only [backlogLoop, hfail]
  refine ⟨h1, ?_⟩
  intro y hy u hu
  rw [h1]
  exact List.mem_append_right _ (backlogLoop_mem_ok runOne ys y u hy hu)

/-- Witness for `backlog_claim`: article 1 fails; articles 0, 2 and 3 are
still processed. -/
theorem backlog_claim_witness :
    backlogLoop runOneW ([0] ++ 1 :: [2, 3]) =
        backlogLoop runOneW [0] ++ backlogLoop runOneW [2, 3]
    ∧ ∀ y ∈ [2, 3], ∀ u, runOneW y = .ok u →
        u ∈ backlogLoop runOneW ([0] ++ 1 :: [2, 3]) :=
  backlog_claim runOneW [0] [2, 3] 1 "summarize failed" rfl

/-! ## Theorems for claim C10 (the imported counter counts rolled-back batches) -/

theorem chunksOf50_sum_length {α : Type} (l : List α) :
    ((chunksOf50 l).map List.length).sum = l.length := by
  induction l using chunksOf50.induct with
  | case1 => simp [chunksOf50]
  | case2 x xs ih =>
    rw [chunksOf50]
    simp only [List.map_cons, List.sum_cons, ih]
    rw [List.length_take, List.length_drop]
    omega

theorem runBatchesFrom_count {α : Type} (failsBatch : Nat → Bool) (cs : List (List α)) :
    ∀ idx, (runBatchesFrom failsBatch idx cs).1 = (cs.map List.length).sum ∧
      (runBatchesFrom failsBatch idx cs).2.length ≤ (cs.map List.length).sum := by
  induction cs with
  | nil => intro idx; exact ⟨rfl, by simp [runBatchesFrom]⟩
  | cons b rest ih =>
    intro idx
    have h := ih (idx + 1)
    constructor
    · show b.length + (runBatchesFrom failsBatch (idx + 1) rest).1 = _
      rw [h.1]
      simp
    · show ((if failsBatch idx then [] else b) ++
        (runBatchesFrom failsBatch (idx + 1) rest).2).length ≤ _
      rw [List.length_append, List.map_cons, List.sum_cons]
      have h2 := h.2
      by_cases hf : failsBatch idx
      · rw [if_pos hf]
        simp only [List.length_nil]
        omega
      · rw [if_neg hf]
        omega

/-! ## Theorems for claim C7 (summarizer short-input and ordering behaviour) -/

theorem scorePairs_map_snd (sentences : List (List Char)) :
    (scorePairs sentences).map Prod.snd = List.finRange sentences.length := by
  unfold scorePairs
  rw [List.map_map]
  rw [show Prod.snd ∘ (fun i : Fin sentences.length =>
      (pagerank sentences.length (simMatrix sentences) (85/100) 20 i, i)) = id
    from funext fun i => rfl]
  exact List.map_id _

theorem rankedIndices_nodup (sentences : List (List Char)) (K : Nat) :
    (rankedIndices sentences K).Nodup := by
  unfold rankedIndices
  have h1 : (((scorePairs sentences).mergeSort fun a b => decide (b.1 ≤ a.1)).map
      Prod.snd).Nodup := by
    have hperm := List.mergeSort_perm (scorePairs sentences)
      fun a b => decide (b.1 ≤ a.1)
    refine (hperm.map Prod.snd).nodup_iff.mpr ?_
    rw [scorePairs_map_snd]
    exact List.nodup_finRange _
  have h2 : ((((scorePairs sentences).mergeSort fun a b => decide (b.1 ≤ a.1)).take
      K).map Prod.snd).Nodup := by
    rw [List.map_take]
    exact List.Nodup.sublist (List.take_sublist K _) h1
  have hperm2 := List.mergeSort_perm
    (((scorePairs sentences).mergeSort fun a b => decide (b.1 ≤ a.1)).take K)
    fun a b => decide (a.2 ≤ b.2)
  exact (hperm2.map Prod.snd).nodup_iff.mpr h2

theorem rankedIndices_sorted (sentences : List (List Char)) (K : Nat) :
    List.Pairwise (· < ·) (rankedIndices sentences K) := by
  have hpair := @List.sorted_mergeSort (ℚ × Fin sentences.length)
    (fun a b => decide (a.2 ≤ b.2))
    (fun a b c hab hbc => by
      simp only [decide_eq_true_eq] at *
      exact le_trans hab hbc)
    (fun a b => by
      rcases le_total a.2 b.2 with h | h <;> simp [h])
    (((scorePairs sentences).mergeSort fun a b => decide (b.1 ≤ a.1)).take K)
  have hle : List.Pairwise (fun a b : ℚ × Fin sentences.length => a.2 ≤ b.2)
      ((((scorePairs sentences).mergeSort fun a b => decide (b.1 ≤ a.1)).take
        K).mergeSort fun a b => decide (a.2 ≤ b.2)) :=
    hpair.imp fun h => of_decide_eq_true h
  have hne : List.Pairwise (fun a b : ℚ × Fin sentences.length => a.2 ≠ b.2)
      ((((scorePairs sentences).mergeSort fun a b => decide (b.1 ≤ a.1)).take
        K).mergeSort fun a b => decide (a.2 ≤ b.2)) :=
    List.pairwise_map.mp (rankedIndices_nodup sentences K)
  exact List.pairwise_map.mpr ((hle.and hne).imp fun h => lt_of_le_of_ne h.1 h.2)

theorem rankedIndices_length (sentences : List (List Char)) (K : Nat)
    (h : K ≤ sentences.length) : (rankedIndices sentences K).length = K := by
  unfold rankedIndices
  rw [List.length_map, List.length_mergeSort, List.length_take,
    List.length_mergeSort]
  unfold scorePairs
  rw [List.length_map, List.length_finRange]
  omega

/-- Claim C7, as stated, is false in its first half: for input with at most
`numSentences` sentences the summarizer does NOT return the text unchanged.
`"Hi."` is a single sentence, but it has fewer than 4 words, so
`splitSentences` drops it and `summarize` returns the empty string. -/
theorem summarize_counterexample :
    (sentenceMatches "Hi.".toList).length = 1 ∧
      (splitSentences "Hi.".toList).length ≤ 3 ∧
      summarize "Hi.".toList 3 = [] ∧ "Hi.".toList ≠ [] := by
  decide

/-- Claim C7 (amended): when the parsed sentence list (regex sentences,
trimmed, kept only when their word count is between 4 and 100) has at most
`numSentences` entries, `summarize` returns exactly those sentences joined by
single spaces — not necessarily the original text, since out-of-range
sentences and trailing text without a terminator are dropped.  For longer
input, `summarize` returns the selected sentences joined by single spaces,
where the selected index list has exactly `numSentences` entries and is
strictly increasing: the selected sentences appear in their original document
order. -/
theorem summarize_claim (text : List Char) (K : Nat) :
    ((splitSentences text).length ≤ K →
      summarize text K = joinSpace (splitSentences text))
    ∧ (K < (splitSentences text).length →
      summarize text K =
          joinSpace ((rankedIndices (splitSentences text) K).map
            fun i => (splitSentences text).get i)
        ∧ (rankedIndices (splitSentences text) K).length = K
        ∧ List.Pairwise (· < ·) (rankedIndices (splitSentences text) K)) := by
  constructor
  · intro h
    unfold summarize
    rw [if_pos h]
  · intro h
    refine ⟨?_, rankedIndices_length _ _ (by omega), rankedIndices_sorted _ _⟩
    unfold summarize
    rw [if_neg (by omega)]

/-- Witness for `summarize_claim`: a two-sentence text summarized to one
sentence. -/
theorem summarize_claim_witness :
    summarize twoSentenceText 1 =
        joinSpace ((rankedIndices (splitSentences twoSentenceText) 1).map
          fun i => (splitSentences twoSentenceText).get i)
      ∧ (rankedIndices (splitSentences twoSentenceText) 1).length = 1
      ∧ List.Pairwise (· < ·) (rankedIndices (splitSentences twoSentenceText) 1) :=
  (summarize_claim twoSentenceText 1).2 (by decide)

/-! ## Theorems for claim C8 (pagerank score-sum and isolated-sentence baseline) -/

theorem pagerankStep_sum (n : Nat) (m : Fin n → Fin n → ℚ) (d : ℚ)
    (s : Fin n → ℚ) (hn : 0 < n) (hpos : ∀ i, 0 < outSum n m i) :
    ∑ j, pagerankStep n m d s j = (1 - d) + d * ∑ i, s i := by
  have hcast : (n : ℚ) ≠ 0 := Nat.cast_ne_zero.mpr (by omega)
  unfold pagerankStep
  rw [Finset.sum_add_distrib]
  have h1 : ∑ _j : Fin n, (1 - d) / (n : ℚ) = (1 - d) := by
    rw [Finset.sum_const, Finset.card_univ, Fintype.card_fin, nsmul_eq_mul]
    field_simp
  have h2 : ∑ j : Fin n, ∑ i,
      (if 0 < outSum n m i then d * s i * (m i j / outSum n m i) else 0) =
      d * ∑ i, s i := by
    rw [Finset.sum_comm, Finset.mul_sum]
    apply Finset.sum_congr rfl
    intro i _
    have hi := hpos i
    simp only [if_pos hi]
    rw [← Finset.mul_sum]
    have hout : ∑ j, m i j / outSum n m i = 1 := by
      rw [← Finset.sum_div]
      exact div_self (ne_of_gt hi)
    rw [hout, mul_one]
  rw [h1, h2]

theorem pagerankIter_sum (n : Nat) (m : Fin n → Fin n → ℚ) (d : ℚ)
    (hn : 0 < n) (hpos : ∀ i, 0 < outSum n m i) :
    ∀ t, ∑ j, pagerankIter n m d t j = 1 := by
  have hcast : (n : ℚ) ≠ 0 := Nat.cast_ne_zero.mpr (by omega)
  intro t
  induction t with
  | zero =>
    show ∑ _j : Fin n, 1 / (n : ℚ) = 1
    rw [Finset.sum_const, Finset.card_univ, Fintype.card_fin, nsmul_eq_mul,
      mul_one_div, div_self hcast]
  | succ t ih =>
    show ∑ j, pagerankStep n m d (pagerankIter n m d t) j = 1
    rw [pagerankStep_sum n m d _ hn hpos, ih]
    ring

theorem pagerankStep_isolated (n : Nat) (m : Fin n → Fin n → ℚ) (d : ℚ)
    (i0 : Fin n) (hcol : ∀ i, m i i0 = 0) (s : Fin n → ℚ) :
    pagerankStep n m d s i0 = (1 - d) / (n : ℚ) := by
  unfold pagerankStep
  have hz : ∀ i : Fin n,
      (if 0 < outSum n m i then d * s i * (m i i0 / outSum n m i) else 0) = 0 := by
    intro i
    rw [hcol i]
    simp
  rw [Finset.sum_congr rfl fun i _ => hz i, Finset.sum_const_zero, add_zero]

/-- Claim C8, as stated, is false: the sum of all sentence scores is NOT a
constant across iterations for every similarity matrix.  For the similarity
matrix of two sentences with no token in common (all zeros), every row's
`outSum` is 0, so no score mass is redistributed: the sum drops from 1 to
`2 * (1 - 0.85)/2 = 3/20` after the first iteration. -/
theorem pagerank_sum_counterexample :
    ¬(∑ j, pagerankIter 2 mZero2 (85/100) 1 j =
        ∑ j, pagerankIter 2 mZero2 (85/100) 0 j) := by
  have h0 : ∑ j, pagerankIter 2 mZero2 (85/100) 0 j = 1 := by
    rw [Fin.sum_univ_two]
    norm_num [pagerankIter]
  have h1 : ∑ j, pagerankIter 2 mZero2 (85/100) 1 j = 3 / 20 := by
    have hout : ∀ i : Fin 2, outSum 2 mZero2 i = 0 := by
      intro i
      simp [outSum, mZero2]
    rw [Fin.sum_univ_two]
    simp only [pagerankIter, pagerankStep, hout, lt_self_iff_false, if_false,
      Finset.sum_const_zero, add_zero]
    norm_num
  rw [h0, h1]
  norm_num

/-- Claim C8 (amended): when every row of the similarity matrix has a positive
out-sum, the sum of all sentence scores equals 1 after every iteration (a
constant across iterations); this fails for matrices with a zero row, where
the damped mass of that row is dropped.  Independently, a sentence whose
similarity column is all zeros (an isolated sentence) ends every iteration
with exactly the baseline score `(1 - damping)/n`. -/
theorem pagerank_claim (n : Nat) (m : Fin n → Fin n → ℚ) (d : ℚ) (hn : 0 < n) :
    ((∀ i, 0 < outSum n m i) → ∀ t, ∑ j, pagerankIter n m d t j = 1)
    ∧ ∀ i0 : Fin n, (∀ i, m i i0 = 0) → ∀ t,
        pagerankIter n m d (t + 1) i0 = (1 - d) / (n : ℚ) :=
  ⟨fun hpos t => pagerankIter_sum n m d hn hpos t,
   fun i0 hcol _t => pagerankStep_isolated n m d i0 hcol _⟩

/-- Witness for `pagerank_claim`: a 2x2 matrix whose rows both sum to 1 and
whose second column is zero. -/
theorem pagerank_claim_witness :
    (∀ t, ∑ j, pagerankIter 2 mW2 (85/100) t j = 1)
    ∧ ∀ t, pagerankIter 2 mW2 (85/100) (t + 1) 1 = (1 - 85/100) / ((2 : Nat) : ℚ) :=
  ⟨(pagerank_claim 2 mW2 (85/100) (by norm_num)).1
      (by intro i; simp [outSum, mW2, Fin.sum_univ_two]),
   fun t => (pagerank_claim 2 mW2 (85/100) (by norm_num)).2 1 (fun i => rfl) t⟩

/-- Claim C10, confirmed: after the Wayback importer's batched persistence
loop, the `imported` counter equals the total number of discovered posts for
EVERY pattern of batch-transaction failures, because `imported += batch.length`
runs unconditionally after the per-batch try/catch; the rows actually
committed can be fewer (rolled-back batches contribute nothing), so the final
reported count never reflects rows lost to failed batches. -/
theorem importedCount_claim {α : Type} (failsBatch : Nat → Bool) (posts : List α) :
    (importBatchesResult failsBatch posts).1 = posts.length ∧
      (importBatchesResult failsBatch posts).2.length ≤ posts.length := by
  have h := runBatchesFrom_count failsBatch (chunksOf50 posts) 0
  rw [chunksOf50_sum_length] at h
  exact h

end BlogLog
